import Mathlib

/-!
# image-server: a shallow embedding of `main.go`

The five HTTP handlers of `main.go` are rendered as pure functions
`Env → World → Request → World × Reply`.

* `World` is the state the handlers share: the package variable
  `currentImage` and the file system.
* `Request` carries what the handlers read from `*http.Request`.
* `Env` carries the answers of the operating system that the program text
  does not determine (the clock, and whether an I/O call fails).
* `Reply` records which of the three ways of answering was used:
  `respondJSON`, `http.Error`, or `http.ServeFile`.

The read/write lock `mu` guards single assignments and reads of
`currentImage`; handlers are modelled as running one after another.

Library calls are modelled by what they do to this state:

* the file system is the list of paths that exist, as `filepath.Join` hands
  them to the operating system, with the content stored there; `os.Stat`
  reports a path that is not in the list as not existing, `os.ReadDir` lists
  the direct children of a directory sorted by name, `os.Create` and `io.Copy`
  store a file at a path;
* whether a call fails for a reason outside the program (permissions, a full
  disk, a broken connection) is a flag of `Env`;
* `http.DetectContentType` is a parameter of `uploadHandler`: the theorems
  hold for every detector.
-/

namespace ImageServer

/-! ## Bytes, responses, replies -/

abbrev Byte := Fin 256

abbrev Bytes := List Byte

/-- A Go `[]string`: `none` is the nil slice, `some l` a slice with the
elements `l`. -/
abbrev StringSlice := Option (List String)

/-- The call `make([]string, 0, n)`: an empty slice that is not nil. -/
def StringSlice.make : StringSlice := some []

/-- The call `append(s, x)`. -/
def StringSlice.append (s : StringSlice) (x : String) : StringSlice :=
  some (s.getD [] ++ [x])

/-- Values the handlers store in the `Data any` field of `Response`:
a `[]string` or a `map[string]string` literal (as key/value pairs). -/
inductive DataValue where
  | strings (l : StringSlice)
  | dict (kv : List (String × String))
deriving DecidableEq, Repr

/-- The struct `Response`. `Data` has Go type `any`; the nil interface is
`none`. -/
structure Response where
  Success : Bool
  Message : String
  Data : Option DataValue
deriving DecidableEq, Repr

/-- What a handler wrote to the `http.ResponseWriter`. -/
inductive Reply where
  /-- `respondJSON(w, status, response)`: header `application/json`, the
  status code, and the JSON encoding of `response` as body. -/
  | json (status : Nat) (response : Response)
  /-- `http.Error(w, msg, status)`: a `text/plain` body holding `msg`. -/
  | text (status : Nat) (msg : String)
  /-- `http.ServeFile(w, r, path)`: the answer is left to Go's file server for
  the file at `path`. -/
  | serveFile (path : String)
deriving DecidableEq, Repr

namespace http

def StatusOK : Nat := 200

def StatusCreated : Nat := 201

def StatusBadRequest : Nat := 400

def StatusNotFound : Nat := 404

def StatusMethodNotAllowed : Nat := 405

def StatusInternalServerError : Nat := 500

end http

/-- The function `respondJSON` of `main.go`. -/
def respondJSON (status : Nat) (response : Response) : Reply :=
  Reply.json status response

/-- The status code of a reply that carries one (`http.ServeFile` chooses its
own). -/
def Reply.status : Reply → Option Nat
  | .json s _ => some s
  | .text s _ => some s
  | .serveFile _ => none

/-- JSON values that occur in an encoded `Response`. -/
inductive JsonValue where
  | null
  | bool (b : Bool)
  | str (s : String)
  | array (l : List String)
  | object (kv : List (String × String))
deriving DecidableEq, Repr

/-- Ordered insertion by key (string order), used for the sorted output of
`os.ReadDir` and of the JSON encoder on maps. -/
def insertByKey {α : Type} (key : α → String) (a : α) : List α → List α
  | [] => [a]
  | x :: xs => if (key a).data < (key x).data then a :: x :: xs else x :: insertByKey key a xs

def sortByKey {α : Type} (key : α → String) (l : List α) : List α :=
  l.foldr (insertByKey key) []

/-- The JSON encoding of a data value: a nil slice is `null`, any other slice
an array, a map an object with its keys sorted. -/
def DataValue.encode : DataValue → JsonValue
  | .strings none => JsonValue.null
  | .strings (some l) => JsonValue.array l
  | .dict kv => JsonValue.object (sortByKey Prod.fst kv)

/-- The members of the JSON object that `json.NewEncoder(w).Encode(response)`
writes, in order, following the struct tags of `Response`: `success` and
`message` always, `data` unless the interface value is nil (`omitempty` on a
field of interface type looks at nil-ness only). String escaping is not
modelled. -/
def Response.encode (r : Response) : List (String × JsonValue) :=
  [("success", JsonValue.bool r.Success), ("message", JsonValue.str r.Message)] ++
    (match r.Data with
     | none => []
     | some d => [("data", d.encode)])

/-- The body of a reply made by `respondJSON`, as the members of the JSON
object written. -/
def Reply.jsonBody : Reply → Option (List (String × JsonValue))
  | .json _ response => some response.encode
  | _ => none

/-- The uniform envelope the specification asks of every answer: a JSON
`Response` whose status matches it, that is, an error (`success = false`) has
a non-empty message and one of the statuses 400, 404, 405, 500, and
`success = true` comes with a 2xx status. -/
def Reply.isUniformEnvelope : Reply → Bool
  | .json status response =>
    if response.Success then decide (200 ≤ status ∧ status < 300)
    else response.Message != "" &&
      (status == 400 || status == 404 || status == 405 || status == 500)
  | _ => false

/-! ## Paths -/

/-- Split a path at every `/`. -/
def splitSlash : List Char → List (List Char)
  | [] => [[]]
  | c :: cs =>
    if c = '/' then [] :: splitSlash cs
    else
      match splitSlash cs with
      | [] => [[c]]
      | e :: es => (c :: e) :: es

/-- One step of `filepath.Clean` over the path elements; `out` is the stack of
elements kept so far, last one first. Empty and `.` elements are dropped; `..`
removes the last kept element when there is one that is not itself `..`, is
kept when the path is not rooted, and is dropped at the root. -/
def cleanStep (rooted : Bool) (out : List (List Char)) (e : List Char) : List (List Char) :=
  if e = [] ∨ e = ['.'] then out
  else if e = ['.', '.'] then
    match out with
    | top :: rest => if top = ['.', '.'] then e :: out else rest
    | [] => if rooted then [] else [e]
  else e :: out

namespace filepath

/-- Go's `filepath.Clean` for slash-separated paths, element by element. -/
def Clean (path : String) : String :=
  if path = "" then "."
  else
    let rooted := path.data.head? = some '/'
    let out := (splitSlash path.data).foldl (cleanStep rooted) []
    let s := (if rooted then ['/'] else []) ++ List.intercalate ['/'] out.reverse
    if s = [] then "." else String.mk s

/-- Go's `filepath.Join` at two elements: the non-empty elements joined by `/`
and cleaned. -/
def Join (a b : String) : String :=
  if a ≠ "" then Clean (a ++ "/" ++ b)
  else if b ≠ "" then Clean b
  else ""

end filepath

/-! ## File system -/

inductive Node where
  | file (content : Bytes)
  | dir
deriving DecidableEq, Repr

def Node.isDir : Node → Bool
  | .dir => true
  | .file _ => false

/-- The file system as the list of existing paths (in cleaned form, as
`filepath.Join` produces them) with what is stored there. -/
structure FS where
  nodes : List (String × Node)
deriving DecidableEq, Repr

def FS.lookup (fs : FS) (path : String) : Option Node :=
  fs.nodes.lookup path

/-- Store a regular file with the given content at `path`, replacing what was
there. -/
def FS.write (fs : FS) (path : String) (content : Bytes) : FS :=
  ⟨(path, Node.file content) :: fs.nodes.filter (fun kv => kv.1 ≠ path)⟩

/-- Answers of the environment that the program text does not determine. Each
`Fails` flag makes the corresponding call return an error. -/
structure Env where
  /-- `time.Now().UnixNano()` -/
  now : Int
  /-- `file.Read` returns an I/O error -/
  readFails : Bool
  /-- `file.Seek` returns an error -/
  seekFails : Bool
  /-- `os.Create` returns an error -/
  createFails : Bool
  /-- `io.Copy` returns an error after writing that many bytes -/
  copyFails : Option Nat
  /-- `os.Stat` returns an error other than "does not exist" -/
  statFails : Bool
  /-- `os.ReadDir` returns an error -/
  readDirFails : Bool
deriving DecidableEq, Repr

/-- Errors of `os.Stat`, as far as `os.IsNotExist` tells them apart. -/
inductive OsError where
  | notExist
  | other
deriving DecidableEq, Repr

structure DirEntry where
  Name : String
  IsDir : Bool
deriving DecidableEq, Repr

/-- The directory entry that a node of the file system is in directory `dir`,
if it is a direct child of it. -/
def childOf (dir : String) (kv : String × Node) : Option DirEntry :=
  let p := (dir ++ "/").data
  if p.isPrefixOf kv.1.data then
    let m := kv.1.data.drop p.length
    if m ≠ [] ∧ '/' ∉ m then some ⟨String.mk m, kv.2.isDir⟩ else none
  else none

namespace os

/-- The error of `os.Stat(path)` (`none` is Go's nil error). -/
def Stat (env : Env) (fs : FS) (path : String) : Option OsError :=
  if env.statFails then some OsError.other
  else
    match fs.lookup path with
    | some _ => none
    | none => some OsError.notExist

def IsNotExist (err : Option OsError) : Bool :=
  err = some OsError.notExist

/-- The entries of `dir`, sorted by file name, or `none` for an error. -/
def ReadDir (env : Env) (fs : FS) (dir : String) : Option (List DirEntry) :=
  if env.readDirFails then none
  else some (sortByKey DirEntry.Name (fs.nodes.filterMap (childOf dir)))

/-- Create or truncate the file at `path`; `none` for an error. -/
def Create (env : Env) (fs : FS) (path : String) : Option FS :=
  if env.createFails then none else some (fs.write path [])

end os

/-- An open `multipart.File`: its content and the read offset. -/
structure File where
  content : Bytes
  off : Nat
deriving DecidableEq, Repr

/-- Result of `file.Read(buff)`: the buffer afterwards, the byte count, whether
an error was returned, and the file with its offset advanced. -/
structure ReadResult where
  buff : Bytes
  n : Nat
  err : Bool
  file : File
deriving DecidableEq, Repr

/-- The method `Read` of a `multipart.File` (a section reader over the part
held in memory, or an `*os.File`): at the end of the content it returns 0 bytes
and `io.EOF`; otherwise it fills the front of `buff` with the next bytes, as
many as are left and fit, and returns no error. -/
def File.Read (f : File) (env : Env) (buff : Bytes) : ReadResult :=
  if env.readFails then ⟨buff, 0, true, f⟩
  else if f.off ≥ f.content.length then ⟨buff, 0, true, f⟩
  else
    let chunk := (f.content.drop f.off).take buff.length
    ⟨chunk ++ buff.drop chunk.length, chunk.length, false,
      { f with off := f.off + chunk.length }⟩

namespace io

def SeekStart : Nat := 0

def SeekCurrent : Nat := 1

def SeekEnd : Nat := 2

end io

/-- The method `Seek(offset, whence)` of a `multipart.File`: the new read
offset is `offset` from the start, the current offset or the end; an unknown
`whence` or a negative position is an error (`none`). -/
def File.Seek (f : File) (env : Env) (offset : Int) (whence : Nat) : Option File :=
  if env.seekFails then none
  else if whence > io.SeekEnd then none
  else
    let base : Int :=
      if whence = io.SeekStart then 0
      else if whence = io.SeekCurrent then f.off
      else f.content.length
    if base + offset < 0 then none else some { f with off := (base + offset).toNat }

namespace io

/-- The call `io.Copy(dst, src)` where `dst` is the file just created at
`path`: the bytes of `src` from its read offset to the end are written. Returns
the file system afterwards and whether an error was returned. -/
def Copy (env : Env) (fs : FS) (path : String) (src : File) : FS × Bool :=
  let data := src.content.drop src.off
  match env.copyFails with
  | none => (fs.write path data, false)
  | some k => (fs.write path (data.take k), true)

end io

/-! ## Requests and shared state -/

/-- The pair `file, header` that `r.FormFile` returns. -/
structure FormFile where
  Filename : String
  content : Bytes
deriving DecidableEq, Repr

/-- What the handlers read from `*http.Request`. -/
structure Request where
  Method : String
  /-- the parsed form values, for `r.FormValue` -/
  Form : List (String × String)
  /-- the uploaded files by field name, for `r.FormFile` -/
  Files : List (String × FormFile)
deriving DecidableEq, Repr

/-- The call `r.FormValue(key)`: the first value for `key`, or the empty string. -/
def Request.FormValue (r : Request) (key : String) : String :=
  (r.Form.lookup key).getD ""

/-- The call `r.FormFile(key)`; `none` for an error. -/
def Request.FormFile (r : Request) (key : String) : Option FormFile :=
  r.Files.lookup key

/-- The package-level state of `main.go` together with the file system. -/
structure World where
  currentImage : String
  fs : FS
deriving DecidableEq, Repr

def uploadDir : String := "uploads"

/-- The map `allowedTypes`, as its key/value pairs. -/
def allowedTypesTable : List (String × Bool) :=
  [("image/jpeg", true),
   ("image/png", true),
   ("image/gif", true),
   ("image/webp", true),
   ("application/octet-stream", true)]

/-- The lookup `allowedTypes[mimeType]`: a missing key gives `false`. -/
def allowedTypes (mimeType : String) : Bool :=
  (allowedTypesTable.lookup mimeType).getD false

/-- The state at process start: nothing selected. -/
def World.init (fs : FS) : World := ⟨"", fs⟩

/-- The buffer `make([]byte, 512)`. -/
def sniffBuffer : Bytes := List.replicate 512 0

/-! ## The handlers -/

/-- The handler `uploadHandler`. `DetectContentType` stands for Go's
`http.DetectContentType`. -/
def uploadHandler (DetectContentType : Bytes → String) (env : Env) (w : World) (r : Request) :
    World × Reply :=
  if r.Method ≠ "POST" then
    (w, respondJSON http.StatusMethodNotAllowed ⟨false, "Method not allowed", none⟩)
  else
    match r.FormFile "image" with
    | none => (w, respondJSON http.StatusBadRequest ⟨false, "Invalid file upload", none⟩)
    | some header =>
      let file : File := ⟨header.content, 0⟩
      let rd := file.Read env sniffBuffer
      if rd.err then
        (w, respondJSON http.StatusInternalServerError
          ⟨false, "Error reading file content", none⟩)
      else
        let mimeType := DetectContentType rd.buff
        if !allowedTypes mimeType then
          (w, respondJSON http.StatusBadRequest
            ⟨false, "Unsupported file type: " ++ mimeType, none⟩)
        else
          match rd.file.Seek env 0 io.SeekStart with
          | none =>
            (w, respondJSON http.StatusInternalServerError
              ⟨false, "Error processing file", none⟩)
          | some file =>
            let filename := toString env.now ++ "-" ++ header.Filename
            let dstPath := filepath.Join uploadDir filename
            match os.Create env w.fs dstPath with
            | none =>
              (w, respondJSON http.StatusInternalServerError
                ⟨false, "Error creating file on server", none⟩)
            | some fs1 =>
              match io.Copy env fs1 dstPath file with
              | (fs2, true) =>
                ({ w with fs := fs2 }, respondJSON http.StatusInternalServerError
                  ⟨false, "Error saving file content", none⟩)
              | (fs2, false) =>
                ({ w with fs := fs2 }, respondJSON http.StatusCreated
                  ⟨true, "File uploaded successfully",
                    some (DataValue.dict [("filename", filename)])⟩)

/-- The handler `streamHandler`. -/
def streamHandler (env : Env) (w : World) (_r : Request) : World × Reply :=
  let filename := w.currentImage
  if filename = "" then
    (w, Reply.text http.StatusNotFound "No image currently selected")
  else
    let filePath := filepath.Join uploadDir filename
    if os.IsNotExist (os.Stat env w.fs filePath) then
      (w, Reply.text http.StatusNotFound "Selected image no longer exists")
    else
      (w, Reply.serveFile filePath)

/-- The handler `selectImageHandler`. -/
def selectImageHandler (env : Env) (w : World) (r : Request) : World × Reply :=
  if r.Method ≠ "POST" then
    (w, respondJSON http.StatusMethodNotAllowed ⟨false, "Method not allowed", none⟩)
  else
    let filename := r.FormValue "filename"
    if filename = "" then
      (w, respondJSON http.StatusBadRequest ⟨false, "Missing filename parameter", none⟩)
    else
      let filePath := filepath.Join uploadDir filename
      if os.IsNotExist (os.Stat env w.fs filePath) then
        (w, respondJSON http.StatusNotFound ⟨false, "File not found", none⟩)
      else
        ({ w with currentImage := filename },
          respondJSON http.StatusOK ⟨true, "Image selected successfully", none⟩)

/-- The body of the loop of `listImagesHandler`. -/
def collectName (filenames : StringSlice) (file : DirEntry) : StringSlice :=
  if !file.IsDir then filenames.append file.Name else filenames

/-- The handler `listImagesHandler`. -/
def listImagesHandler (env : Env) (w : World) (_r : Request) : World × Reply :=
  match os.ReadDir env w.fs uploadDir with
  | none =>
    (w, respondJSON http.StatusInternalServerError
      ⟨false, "Error reading upload directory", none⟩)
  | some files =>
    let filenames := files.foldl collectName StringSlice.make
    (w, respondJSON http.StatusOK ⟨true, "", some (DataValue.strings filenames)⟩)

/-- The handler `currentImageHandler`. -/
def currentImageHandler (_env : Env) (w : World) (_r : Request) : World × Reply :=
  let current := w.currentImage
  (w, respondJSON http.StatusOK ⟨true, "", some (DataValue.dict [("current", current)])⟩)

/-! ## Sequences of requests -/

/-- The five routes of `main` that lead to a handler of `main.go`. -/
inductive Route where
  | upload
  | stream
  | selectImage
  | images
  | currentImage
deriving DecidableEq, Repr

/-- One thing that happens to the server: a request to a route, served under
some environment, or a change of the file system from outside the program. -/
inductive Event where
  | request (route : Route) (env : Env) (r : Request)
  | outOfBand (fs : FS)
deriving DecidableEq, Repr

/-- The dispatch of `main`: which handler serves which route. -/
def serve (detect : Bytes → String) (route : Route) (env : Env) (w : World) (r : Request) :
    World × Reply :=
  match route with
  | .upload => uploadHandler detect env w r
  | .stream => streamHandler env w r
  | .selectImage => selectImageHandler env w r
  | .images => listImagesHandler env w r
  | .currentImage => currentImageHandler env w r

def step (detect : Bytes → String) (w : World) : Event → World
  | .request route env r => (serve detect route env w r).1
  | .outOfBand fs => { w with fs := fs }

def run (detect : Bytes → String) (w : World) (es : List Event) : World :=
  es.foldl (step detect) w

/-- Whether an event is a request to `/select-image`. -/
def Event.isSelect : Event → Bool
  | .request .selectImage _ _ => true
  | _ => false

/-! ## Sample data for concrete evaluations -/

/-- The eight bytes every PNG file starts with. -/
def pngMagic : Bytes := [0x89, 0x50, 0x4E, 0x47, 0x0D, 0x0A, 0x1A, 0x0A]

/-- A detector that knows PNG only and, as `http.DetectContentType` does, falls
back to `application/octet-stream`. -/
def sniffPNG (data : Bytes) : String :=
  if pngMagic.isPrefixOf data then "image/png" else "application/octet-stream"

/-- An environment in which no call fails. -/
def quietEnv (now : Int) : Env := ⟨now, false, false, false, none, false, false⟩

/-- A file system holding the upload directory and one image in it. -/
def sampleFS : FS := ⟨[("uploads", Node.dir), ("uploads/7-cat.png", Node.file pngMagic)]⟩

def postSelect (filename : String) : Request := ⟨"POST", [("filename", filename)], []⟩

def postUpload (name : String) (content : Bytes) : Request :=
  ⟨"POST", [], [("image", ⟨name, content⟩)]⟩

def getRequest : Request := ⟨"GET", [], []⟩

/-- The five bytes of the text `hello`. -/
def helloBytes : Bytes := [104, 101, 108, 108, 111]

/-- The bytes that `http.DetectContentType` takes as a sign of binary data. -/
def isBinaryByte (b : Byte) : Bool :=
  decide (b.val ≤ 0x08) || decide (b.val = 0x0B) ||
    (decide (0x0E ≤ b.val) && decide (b.val ≤ 0x1A)) ||
    (decide (0x1C ≤ b.val) && decide (b.val ≤ 0x1F))

/-- A detector that applies only the last rule of `http.DetectContentType`:
plain text unless a binary byte occurs, else the fallback
`application/octet-stream`. It agrees with `http.DetectContentType` on data
that matches none of its signatures (markup, images, audio, video, fonts,
archives). -/
def sniffText (data : Bytes) : String :=
  if data.any isBinaryByte then "application/octet-stream" else "text/plain; charset=utf-8"

/-! ## Lemmas on paths and decimal numerals -/

theorem digitChar_ne_slash (d : Nat) (h : d < 10) : Nat.digitChar d ≠ '/' := by
  interval_cases d <;> decide

theorem toDigitsCore_no_slash (f : Nat) : ∀ (n : Nat) (ds : List Char),
    '/' ∉ ds → '/' ∉ Nat.toDigitsCore 10 f n ds := by
  induction f with
  | zero => intro n ds h; simpa [Nat.toDigitsCore] using h
  | succ f ih =>
    intro n ds h
    have hd : '/' ∉ Nat.digitChar (n % 10) :: ds := by
      simp only [List.mem_cons, not_or]
      exact ⟨fun e => digitChar_ne_slash _ (Nat.mod_lt _ (by decide)) e.symm, h⟩
    simp only [Nat.toDigitsCore]
    split
    · exact hd
    · exact ih _ _ hd

theorem natRepr_no_slash (n : Nat) : '/' ∉ (toString n).data := by
  show '/' ∉ (Nat.repr n).data
  simp only [Nat.repr, Nat.toDigits, List.asString]
  exact toDigitsCore_no_slash _ _ _ (by simp)

theorem intRepr_no_slash (i : Int) : '/' ∉ (toString i).data := by
  cases i with
  | ofNat m => exact natRepr_no_slash m
  | negSucc m =>
    show '/' ∉ ("-" ++ toString (Nat.succ m)).data
    simp only [String.data_append, List.mem_append, not_or]
    exact ⟨by decide, natRepr_no_slash _⟩

theorem splitSlash_plain (l : List Char) (h : '/' ∉ l) : splitSlash l = [l] := by
  induction l with
  | nil => rfl
  | cons c cs ih =>
    simp only [List.mem_cons, not_or] at h
    have hc : c ≠ '/' := fun e => h.1 e.symm
    simp [splitSlash, hc, ih h.2]

theorem splitSlash_append (a b : List Char) (h : '/' ∉ a) :
    splitSlash (a ++ '/' :: b) = a :: splitSlash b := by
  induction a with
  | nil => simp [splitSlash]
  | cons c cs ih =>
    simp only [List.mem_cons, not_or] at h
    have hc : c ≠ '/' := fun e => h.1 e.symm
    simp [splitSlash, hc, ih h.2]

/-- A plain file name joined to the upload directory is that name behind
`uploads/`. -/
theorem join_uploadDir_plain (n : String) (h1 : '/' ∉ n.data) (h2 : n.data ≠ [])
    (h3 : n.data ≠ ['.']) (h4 : n.data ≠ ['.', '.']) :
    filepath.Join uploadDir n = "uploads/" ++ n := by
  have hne : uploadDir ++ "/" ++ n ≠ "" := by
    intro e
    have := congrArg String.data e
    simp [uploadDir] at this
  have hdata : (uploadDir ++ "/" ++ n).data = "uploads".data ++ '/' :: n.data := by
    simp [uploadDir, String.data_append]
  have hsplit : splitSlash (uploadDir ++ "/" ++ n).data = ["uploads".data, n.data] := by
    rw [hdata, splitSlash_append _ _ (by decide), splitSlash_plain _ h1]
  have hhead : (uploadDir ++ "/" ++ n).data.head? ≠ some '/' := by
    rw [hdata]; simp
  unfold filepath.Join filepath.Clean
  simp only [ne_eq, show uploadDir ≠ "" by decide, not_false_eq_true, if_true, hne, if_false,
    hsplit, hhead, decide_False]
  simp [cleanStep, h2, h3, h4, List.intercalate]
  apply String.ext
  simp

/-! ## Lemmas on the handlers -/

theorem stat_notExist_iff (env : Env) (fs : FS) (path : String) :
    os.IsNotExist (os.Stat env fs path) = true ↔
      env.statFails = false ∧ fs.lookup path = none := by
  unfold os.IsNotExist os.Stat
  cases hs : env.statFails <;> cases hl : fs.lookup path <;> simp

theorem upload_keeps_selection (detect : Bytes → String) (env : Env) (w : World) (r : Request) :
    (uploadHandler detect env w r).1.currentImage = w.currentImage := by
  unfold uploadHandler
  dsimp only
  repeat (first | rfl | split)

/-- The eight ways in which `uploadHandler` returns. -/
theorem upload_cases (detect : Bytes → String) (env : Env) (w : World) (r : Request) :
    uploadHandler detect env w r = (w, Reply.json 405 ⟨false, "Method not allowed", none⟩) ∨
    uploadHandler detect env w r = (w, Reply.json 400 ⟨false, "Invalid file upload", none⟩) ∨
    uploadHandler detect env w r =
      (w, Reply.json 500 ⟨false, "Error reading file content", none⟩) ∨
    (∃ t, uploadHandler detect env w r =
      (w, Reply.json 400 ⟨false, "Unsupported file type: " ++ t, none⟩)) ∨
    uploadHandler detect env w r =
      (w, Reply.json 500 ⟨false, "Error processing file", none⟩) ∨
    uploadHandler detect env w r =
      (w, Reply.json 500 ⟨false, "Error creating file on server", none⟩) ∨
    (∃ fs2, uploadHandler detect env w r =
      (⟨w.currentImage, fs2⟩,
        Reply.json 500 ⟨false, "Error saving file content", none⟩)) ∨
    (∃ fs2 n, uploadHandler detect env w r =
      (⟨w.currentImage, fs2⟩, Reply.json 201 ⟨true, "File uploaded successfully",
        some (DataValue.dict [("filename", n)])⟩)) := by
  by_cases hm : r.Method = "POST"
  swap
  · left
    simp [uploadHandler, hm, respondJSON, http.StatusMethodNotAllowed]
  cases hff : r.FormFile "image" with
  | none =>
    right; left
    simp [uploadHandler, hm, hff, respondJSON, http.StatusBadRequest]
  | some header =>
    cases herr : ((⟨header.content, 0⟩ : File).Read env sniffBuffer).err with
    | true =>
      right; right; left
      simp [uploadHandler, hm, hff, herr, respondJSON, http.StatusInternalServerError]
    | false =>
      cases hal : allowedTypes
          (detect ((⟨header.content, 0⟩ : File).Read env sniffBuffer).buff) with
      | false =>
        right; right; right; left
        exact ⟨detect ((⟨header.content, 0⟩ : File).Read env sniffBuffer).buff,
          by simp [uploadHandler, hm, hff, herr, hal, respondJSON, http.StatusBadRequest]⟩
      | true =>
        cases hseek : ((⟨header.content, 0⟩ : File).Read env sniffBuffer).file.Seek env 0
            io.SeekStart with
        | none =>
          right; right; right; right; left
          simp [uploadHandler, hm, hff, herr, hal, hseek, respondJSON,
            http.StatusInternalServerError]
        | some file =>
          cases hcreate : os.Create env w.fs
              (filepath.Join uploadDir (toString env.now ++ "-" ++ header.Filename)) with
          | none =>
            right; right; right; right; right; left
            simp [uploadHandler, hm, hff, herr, hal, hseek, hcreate, respondJSON,
              http.StatusInternalServerError]
          | some fs1 =>
            cases hcopy : io.Copy env fs1
                (filepath.Join uploadDir (toString env.now ++ "-" ++ header.Filename)) file with
            | mk fs2 b =>
              cases b with
              | true =>
                right; right; right; right; right; right; left
                exact ⟨fs2, by simp [uploadHandler, hm, hff, herr, hal, hseek, hcreate, hcopy,
                  respondJSON, http.StatusInternalServerError]⟩
              | false =>
                right; right; right; right; right; right; right
                exact ⟨fs2, toString env.now ++ "-" ++ header.Filename, by
                  simp [uploadHandler, hm, hff, herr, hal, hseek, hcreate, hcopy, respondJSON,
                    http.StatusCreated]⟩

theorem select_selection (env : Env) (w : World) (r : Request) :
    (selectImageHandler env w r).1.currentImage =
      if (selectImageHandler env w r).2.status = some 200 then r.FormValue "filename"
      else w.currentImage := by
  by_cases hm : r.Method = "POST" <;>
  by_cases hf : r.FormValue "filename" = "" <;>
  by_cases hx : os.IsNotExist (os.Stat env w.fs
    (filepath.Join uploadDir (r.FormValue "filename"))) = true <;>
  simp [selectImageHandler, hm, hf, hx, respondJSON, Reply.status, http.StatusMethodNotAllowed,
    http.StatusBadRequest, http.StatusNotFound, http.StatusOK]

theorem select_ok_nonempty (env : Env) (w : World) (r : Request)
    (h : (selectImageHandler env w r).2.status = some 200) : r.FormValue "filename" ≠ "" := by
  intro hf
  by_cases hm : r.Method = "POST" <;>
  simp [selectImageHandler, hm, hf, respondJSON, Reply.status, http.StatusMethodNotAllowed,
    http.StatusBadRequest] at h

theorem step_keeps_selection (detect : Bytes → String) (w : World) (e : Event)
    (h : e.isSelect = false) : (step detect w e).currentImage = w.currentImage := by
  cases e with
  | outOfBand fs => rfl
  | request route env r =>
    cases route with
    | upload => exact upload_keeps_selection detect env w r
    | stream => simp [step, serve, streamHandler]; repeat (first | rfl | split)
    | selectImage => simp [Event.isSelect] at h
    | images => simp [step, serve, listImagesHandler]; repeat (first | rfl | split)
    | currentImage => rfl

theorem run_keeps_selection (detect : Bytes → String) (es : List Event) :
    ∀ w : World, (∀ e ∈ es, e.isSelect = false) →
      (run detect w es).currentImage = w.currentImage := by
  induction es with
  | nil => intro w _; rfl
  | cons e es ih =>
    intro w h
    have h1 := step_keeps_selection detect w e (h e (List.mem_cons_self _ _))
    have h2 := ih (step detect w e) (fun x hx => h x (List.mem_cons_of_mem _ hx))
    simp only [run, List.foldl_cons] at h2 ⊢
    rw [h2, h1]

theorem step_nonempty (detect : Bytes → String) (w : World) (e : Event)
    (h : w.currentImage ≠ "") : (step detect w e).currentImage ≠ "" := by
  by_cases hs : e.isSelect = false
  · rw [step_keeps_selection detect w e hs]; exact h
  · cases e with
    | outOfBand fs => exact h
    | request route env r =>
      cases route with
      | selectImage =>
        show (selectImageHandler env w r).1.currentImage ≠ ""
        rw [select_selection]
        split
        · next h2 => exact select_ok_nonempty env w r h2
        · exact h
      | upload => simp [Event.isSelect] at hs
      | stream => simp [Event.isSelect] at hs
      | images => simp [Event.isSelect] at hs
      | currentImage => simp [Event.isSelect] at hs

theorem run_nonempty (detect : Bytes → String) (es : List Event) :
    ∀ w : World, w.currentImage ≠ "" → (run detect w es).currentImage ≠ "" := by
  induction es with
  | nil => intro w h; exact h
  | cons e es ih =>
    intro w h
    exact ih (step detect w e) (step_nonempty detect w e h)

/-! ## Selection state: `/select-image`, `/current-image`, `/stream` -/

/-- C1 as stated fails: with `7-cat.png` selected, a POST to `/select-image`
names `7-cat.png/x`. No file exists at `uploads/7-cat.png/x`, but `7-cat.png`
is a regular file, so `os.Stat` fails with an error that is not "does not
exist" (the flag `statFails`); `os.IsNotExist` is false, the 404 branch is
skipped, the answer is 200 and the selection is overwritten with the name of a
file that does not exist. -/
theorem selectImage_absent_file_selected :
    sampleFS.lookup (filepath.Join uploadDir "7-cat.png/x") = none ∧
    os.Stat ⟨1, false, false, false, none, true, false⟩ sampleFS
        (filepath.Join uploadDir "7-cat.png/x") = some OsError.other ∧
    selectImageHandler ⟨1, false, false, false, none, true, false⟩ ⟨"7-cat.png", sampleFS⟩
        (postSelect "7-cat.png/x") =
      (⟨"7-cat.png/x", sampleFS⟩,
        Reply.json 200 ⟨true, "Image selected successfully", none⟩) := by
  set_option maxRecDepth 100000 in decide

/-- C1, amended: for every selection state and every POST to `/select-image`
whose non-empty `filename` is reported by `os.Stat` as not existing under the
upload directory (`os.IsNotExist` holds of the error of `os.Stat` on
`filepath.Join(uploadDir, filename)`), `selectImageHandler` answers 404 with
`success = false`, and the state after the call (selection and file system) is
the state before it. -/
theorem selectImage_missing_file_404 (env : Env) (w : World) (r : Request)
    (hm : r.Method = "POST") (hf : r.FormValue "filename" ≠ "")
    (hx : os.IsNotExist (os.Stat env w.fs
      (filepath.Join uploadDir (r.FormValue "filename"))) = true) :
    selectImageHandler env w r = (w, Reply.json 404 ⟨false, "File not found", none⟩) := by
  simp [selectImageHandler, hm, hf, hx, respondJSON, http.StatusNotFound]

set_option maxRecDepth 100000 in
theorem selectImage_missing_file_404_witness :
    (postSelect "8-dog.png").Method = "POST" ∧
    (postSelect "8-dog.png").FormValue "filename" ≠ "" ∧
    os.IsNotExist (os.Stat (quietEnv 1) sampleFS
      (filepath.Join uploadDir ((postSelect "8-dog.png").FormValue "filename"))) = true ∧
    selectImageHandler (quietEnv 1) ⟨"7-cat.png", sampleFS⟩ (postSelect "8-dog.png") =
      (⟨"7-cat.png", sampleFS⟩, Reply.json 404 ⟨false, "File not found", none⟩) :=
  ⟨by decide, by decide, by decide,
    selectImage_missing_file_404 (quietEnv 1) ⟨"7-cat.png", sampleFS⟩ (postSelect "8-dog.png")
      (by decide) (by decide) (by decide)⟩

/-- C2: after a `/select-image` call with filename `f` that answered 200, and
after any further events none of which is a `/select-image` request,
`currentImageHandler` answers 200 with `success = true` and data exactly
`current ↦ f`, and `streamHandler`, as long as `os.Stat` does not report the
file missing, serves the file at `filepath.Join(uploadDir, f)`. -/
theorem select_then_current_and_stream (detect : Bytes → String) (env : Env) (w : World)
    (r : Request) (es : List Event) (env2 env3 : Env) (r2 r3 : Request)
    (hok : (selectImageHandler env w r).2.status = some 200)
    (hes : ∀ e ∈ es, e.isSelect = false) :
    currentImageHandler env2 (run detect (selectImageHandler env w r).1 es) r2 =
        (run detect (selectImageHandler env w r).1 es,
          Reply.json 200
            ⟨true, "", some (DataValue.dict [("current", r.FormValue "filename")])⟩) ∧
    (os.IsNotExist (os.Stat env3 (run detect (selectImageHandler env w r).1 es).fs
        (filepath.Join uploadDir (r.FormValue "filename"))) = false →
      streamHandler env3 (run detect (selectImageHandler env w r).1 es) r3 =
        (run detect (selectImageHandler env w r).1 es,
          Reply.serveFile (filepath.Join uploadDir (r.FormValue "filename")))) := by
  have hcur : (run detect (selectImageHandler env w r).1 es).currentImage =
      r.FormValue "filename" := by
    rw [run_keeps_selection detect es _ hes, select_selection, if_pos hok]
  have hne := select_ok_nonempty env w r hok
  refine ⟨?_, ?_⟩
  · simp [currentImageHandler, hcur, respondJSON, http.StatusOK]
  · intro hx
    simp [streamHandler, hcur, hne, hx]

set_option maxRecDepth 100000 in
theorem select_then_current_and_stream_witness :
    (selectImageHandler (quietEnv 1) (World.init sampleFS) (postSelect "7-cat.png")).2.status
      = some 200 ∧
    currentImageHandler (quietEnv 3)
        (run sniffPNG (selectImageHandler (quietEnv 1) (World.init sampleFS)
          (postSelect "7-cat.png")).1
          [Event.request Route.upload (quietEnv 2) (postUpload "dog.png" pngMagic)]) getRequest =
      (run sniffPNG (selectImageHandler (quietEnv 1) (World.init sampleFS)
          (postSelect "7-cat.png")).1
          [Event.request Route.upload (quietEnv 2) (postUpload "dog.png" pngMagic)],
        Reply.json 200 ⟨true, "", some (DataValue.dict [("current", "7-cat.png")])⟩) :=
  ⟨by decide,
    (select_then_current_and_stream sniffPNG (quietEnv 1) (World.init sampleFS)
      (postSelect "7-cat.png")
      [Event.request Route.upload (quietEnv 2) (postUpload "dog.png" pngMagic)]
      (quietEnv 3) (quietEnv 4) getRequest getRequest (by decide) (by decide)).1⟩

/-- C6: `streamHandler` never changes the state; it answers 404 when nothing
is selected, and 404 when `os.Stat` reports the selected file as not existing
under the upload directory (the selection still names it afterwards); in every
other case it serves the file at `filepath.Join(uploadDir, filename)`. -/
theorem stream_404_or_serves_selected (env : Env) (w : World) (r : Request) :
    (streamHandler env w r).1 = w ∧
    (w.currentImage = "" →
      (streamHandler env w r).2 = Reply.text 404 "No image currently selected") ∧
    (w.currentImage ≠ "" →
      os.IsNotExist (os.Stat env w.fs (filepath.Join uploadDir w.currentImage)) = true →
      (streamHandler env w r).2 = Reply.text 404 "Selected image no longer exists") ∧
    (w.currentImage ≠ "" →
      os.IsNotExist (os.Stat env w.fs (filepath.Join uploadDir w.currentImage)) = false →
      (streamHandler env w r).2 = Reply.serveFile (filepath.Join uploadDir w.currentImage)) := by
  refine ⟨?_, ?_, ?_, ?_⟩
  · unfold streamHandler
    dsimp only
    repeat (first | rfl | split)
  · intro h
    simp [streamHandler, h, http.StatusNotFound]
  · intro h hx
    simp [streamHandler, h, hx, http.StatusNotFound]
  · intro h hx
    simp [streamHandler, h, hx]

set_option maxRecDepth 100000 in
theorem stream_404_or_serves_selected_witness :
    (selectImageHandler (quietEnv 1) (World.init sampleFS) (postSelect "7-cat.png")).1 =
      ⟨"7-cat.png", sampleFS⟩ ∧
    streamHandler (quietEnv 2) ⟨"7-cat.png", sampleFS⟩ getRequest =
      (⟨"7-cat.png", sampleFS⟩, Reply.serveFile "uploads/7-cat.png") ∧
    (streamHandler (quietEnv 3) ⟨"7-cat.png", ⟨[("uploads", Node.dir)]⟩⟩ getRequest).2 =
      Reply.text 404 "Selected image no longer exists" ∧
    (streamHandler (quietEnv 3) ⟨"7-cat.png", ⟨[("uploads", Node.dir)]⟩⟩ getRequest).1 =
      ⟨"7-cat.png", ⟨[("uploads", Node.dir)]⟩⟩ :=
  ⟨by decide, by decide,
    (stream_404_or_serves_selected (quietEnv 3) ⟨"7-cat.png", ⟨[("uploads", Node.dir)]⟩⟩
      getRequest).2.2.1 (by decide) (by decide),
    (stream_404_or_serves_selected (quietEnv 3) ⟨"7-cat.png", ⟨[("uploads", Node.dir)]⟩⟩
      getRequest).1⟩

/-- C7: the status of `selectImageHandler` is decided in this order: 405 when
the method is not POST, else 400 when the `filename` field is missing or empty,
else 404 when `os.Stat` reports the file as not existing, else 200.
`uploadHandler` answers 405 to every request that is not a POST, whatever its
body. Every 405 and every 400 of either handler has `success = false` and
leaves the whole state (selection and file system) as it was. -/
theorem select_and_upload_status_order (detect : Bytes → String) (env : Env) (w : World)
    (r : Request) :
    (selectImageHandler env w r).2.status =
      (if r.Method ≠ "POST" then some 405
       else if r.FormValue "filename" = "" then some 400
       else if os.IsNotExist (os.Stat env w.fs
          (filepath.Join uploadDir (r.FormValue "filename"))) = true then some 404
       else some 200) ∧
    (r.FormValue "filename" = "" ↔
      (r.Form.lookup "filename" = none ∨ r.Form.lookup "filename" = some "")) ∧
    (r.Method ≠ "POST" →
      uploadHandler detect env w r =
        (w, Reply.json 405 ⟨false, "Method not allowed", none⟩)) ∧
    (∀ s, (s = 405 ∨ s = 400) →
      ((selectImageHandler env w r).2.status = some s →
        (selectImageHandler env w r).1 = w ∧
        ∃ m, (selectImageHandler env w r).2 = Reply.json s ⟨false, m, none⟩) ∧
      ((uploadHandler detect env w r).2.status = some s →
        (uploadHandler detect env w r).1 = w ∧
        ∃ m, (uploadHandler detect env w r).2 = Reply.json s ⟨false, m, none⟩)) := by
  refine ⟨?_, ?_, ?_, ?_⟩
  · by_cases hm : r.Method = "POST" <;>
    by_cases hf : r.FormValue "filename" = "" <;>
    by_cases hx : os.IsNotExist (os.Stat env w.fs
      (filepath.Join uploadDir (r.FormValue "filename"))) = true <;>
    simp [selectImageHandler, hm, hf, hx, respondJSON, Reply.status,
      http.StatusMethodNotAllowed, http.StatusBadRequest, http.StatusNotFound, http.StatusOK]
  · unfold Request.FormValue
    cases r.Form.lookup "filename" <;> simp
  · intro hm
    simp [uploadHandler, hm, respondJSON, http.StatusMethodNotAllowed]
  · intro s hs
    constructor
    · by_cases hm : r.Method = "POST" <;>
      by_cases hf : r.FormValue "filename" = "" <;>
      by_cases hx : os.IsNotExist (os.Stat env w.fs
        (filepath.Join uploadDir (r.FormValue "filename"))) = true <;>
      rcases hs with rfl | rfl <;>
      simp [selectImageHandler, hm, hf, hx, respondJSON, Reply.status,
        http.StatusMethodNotAllowed, http.StatusBadRequest, http.StatusNotFound, http.StatusOK]
    · rcases upload_cases detect env w r with
        h | h | h | ⟨t, h⟩ | h | h | ⟨fs2, h⟩ | ⟨fs2, n, h⟩ <;>
      rcases hs with rfl | rfl <;>
      simp [h, Reply.status]

set_option maxRecDepth 100000 in
theorem select_and_upload_status_order_witness :
    (selectImageHandler (quietEnv 1) (World.init sampleFS)
      ⟨"GET", [("filename", "7-cat.png")], []⟩).2.status = some 405 ∧
    (selectImageHandler (quietEnv 1) (World.init sampleFS) (postSelect "")).2.status = some 400 ∧
    (selectImageHandler (quietEnv 1) (World.init sampleFS)
      (postSelect "8-dog.png")).2.status = some 404 ∧
    (selectImageHandler (quietEnv 1) (World.init sampleFS)
      (postSelect "7-cat.png")).2.status = some 200 ∧
    uploadHandler sniffPNG (quietEnv 1) (World.init sampleFS)
        ⟨"PUT", [], [("image", ⟨"cat.png", pngMagic⟩)]⟩ =
      (World.init sampleFS, Reply.json 405 ⟨false, "Method not allowed", none⟩) :=
  ⟨by decide, by decide, by decide, by decide,
    (select_and_upload_status_order sniffPNG (quietEnv 1) (World.init sampleFS)
      ⟨"PUT", [], [("image", ⟨"cat.png", pngMagic⟩)]⟩).2.2.1 (by decide)⟩

/-- C10: along every sequence of events from the initial state (nothing
selected), the selection changes only in a `/select-image` request that answers
200, where it becomes that request's filename; and once the selection is
non-empty it is non-empty after every later sequence of events. -/
theorem selection_changes_only_on_successful_select (detect : Bytes → String) (fs0 : FS)
    (es : List Event) (e : Event) (later : List Event) :
    (World.init fs0).currentImage = "" ∧
    ((step detect (run detect (World.init fs0) es) e).currentImage ≠
        (run detect (World.init fs0) es).currentImage →
      ∃ env r, e = Event.request Route.selectImage env r ∧
        (selectImageHandler env (run detect (World.init fs0) es) r).2.status = some 200 ∧
        (step detect (run detect (World.init fs0) es) e).currentImage =
          r.FormValue "filename") ∧
    ((run detect (World.init fs0) es).currentImage ≠ "" →
      (run detect (run detect (World.init fs0) es) later).currentImage ≠ "") := by
  refine ⟨rfl, ?_, run_nonempty detect later _⟩
  intro hch
  by_cases hs : e.isSelect = false
  · exact absurd (step_keeps_selection detect _ e hs) hch
  · cases e with
    | outOfBand fs => exact absurd rfl hch
    | request route env r =>
      cases route with
      | selectImage =>
        refine ⟨env, r, rfl, ?_⟩
        have hsel := select_selection env (run detect (World.init fs0) es) r
        by_cases h200 :
            (selectImageHandler env (run detect (World.init fs0) es) r).2.status = some 200
        · rw [if_pos h200] at hsel
          exact ⟨h200, hsel⟩
        · rw [if_neg h200] at hsel
          exact absurd hsel hch
      | upload => simp [Event.isSelect] at hs
      | stream => simp [Event.isSelect] at hs
      | images => simp [Event.isSelect] at hs
      | currentImage => simp [Event.isSelect] at hs

set_option maxRecDepth 100000 in
theorem selection_changes_only_on_successful_select_witness :
    (run sniffPNG (World.init sampleFS)
      [Event.request Route.selectImage (quietEnv 1) (postSelect "7-cat.png")]).currentImage =
        "7-cat.png" ∧
    (run sniffPNG (run sniffPNG (World.init sampleFS)
        [Event.request Route.selectImage (quietEnv 1) (postSelect "7-cat.png")])
      [Event.outOfBand ⟨[]⟩,
        Event.request Route.selectImage (quietEnv 2) (postSelect "8-dog.png"),
        Event.request Route.stream (quietEnv 3) getRequest]).currentImage ≠ "" :=
  ⟨by decide,
    (selection_changes_only_on_successful_select sniffPNG sampleFS
      [Event.request Route.selectImage (quietEnv 1) (postSelect "7-cat.png")]
      (Event.outOfBand ⟨[]⟩)
      [Event.outOfBand ⟨[]⟩,
        Event.request Route.selectImage (quietEnv 2) (postSelect "8-dog.png"),
        Event.request Route.stream (quietEnv 3) getRequest]).2.2 (by decide)⟩

/-! ## Uploads -/

theorem read_nonempty (env : Env) (c : Bytes) (hr : env.readFails = false) (hc : c ≠ []) :
    (⟨c, 0⟩ : File).Read env sniffBuffer =
      ⟨c.take 512 ++ List.replicate (512 - c.length) 0, min 512 c.length, false,
        ⟨c, min 512 c.length⟩⟩ := by
  have hlen : ¬ (0 ≥ c.length) := by
    have := List.length_pos.mpr hc
    omega
  have h512 : 512 - min 512 c.length = 512 - c.length := by omega
  unfold File.Read sniffBuffer
  simp only [hr, Bool.false_eq_true, if_false, hlen, List.drop_zero, List.length_replicate,
    List.length_take, List.drop_replicate, Nat.zero_add, h512]

theorem read_empty (env : Env) : ((⟨[], 0⟩ : File).Read env sniffBuffer).err = true := by
  cases h : env.readFails <;> simp [File.Read, h]

theorem allowedTypes_iff (t : String) :
    allowedTypes t = true ↔
      t ∈ ["image/jpeg", "image/png", "image/gif", "image/webp", "application/octet-stream"] := by
  unfold allowedTypes allowedTypesTable
  by_cases h1 : t = "image/jpeg"
  · subst h1; decide
  by_cases h2 : t = "image/png"
  · subst h2; decide
  by_cases h3 : t = "image/gif"
  · subst h3; decide
  by_cases h4 : t = "image/webp"
  · subst h4; decide
  by_cases h5 : t = "application/octet-stream"
  · subst h5; decide
  have e1 : (t == "image/jpeg") = false := by simpa using h1
  have e2 : (t == "image/png") = false := by simpa using h2
  have e3 : (t == "image/gif") = false := by simpa using h3
  have e4 : (t == "image/webp") = false := by simpa using h4
  have e5 : (t == "application/octet-stream") = false := by simpa using h5
  simp [List.lookup, e1, e2, e3, e4, e5, h1, h2, h3, h4, h5]

/-- What `uploadHandler` does once the sample has been read and its type is
allowed, when seeking, creating and copying succeed. -/
theorem upload_stored (detect : Bytes → String) (env : Env) (w : World) (r : Request)
    (header : FormFile) (hm : r.Method = "POST") (hff : r.FormFile "image" = some header)
    (hr : env.readFails = false) (hc : header.content ≠ [])
    (hal : allowedTypes (detect (header.content.take 512 ++
      List.replicate (512 - header.content.length) 0)) = true)
    (hseek : env.seekFails = false) (hcreate : env.createFails = false)
    (hcopy : env.copyFails = none) :
    uploadHandler detect env w r =
      (⟨w.currentImage,
          (w.fs.write
            (filepath.Join uploadDir (toString env.now ++ "-" ++ header.Filename)) []).write
            (filepath.Join uploadDir (toString env.now ++ "-" ++ header.Filename))
            header.content⟩,
        Reply.json 201 ⟨true, "File uploaded successfully",
          some (DataValue.dict [("filename", toString env.now ++ "-" ++ header.Filename)])⟩) := by
  simp [uploadHandler, hm, hff, read_nonempty env header.content hr hc, hal, File.Seek,
    io.SeekStart, io.SeekEnd, hseek, os.Create, hcreate, io.Copy, hcopy, respondJSON,
    http.StatusCreated]

/-- The loop of `listImagesHandler` collects the names of the entries that are
not directories, in order, into a slice that is not nil. -/
theorem collect_names (files : List DirEntry) (acc : List String) :
    files.foldl collectName (some acc) =
      some (acc ++ (files.filter (fun e => !e.IsDir)).map DirEntry.Name) := by
  induction files generalizing acc with
  | nil => simp
  | cons f fs ih =>
    cases hd : f.IsDir
    · simp [List.foldl_cons, collectName, hd, StringSlice.append, ih]
    · simp [List.foldl_cons, collectName, hd, ih]

theorem mem_insertByKey {α : Type} (key : α → String) (a b : α) (l : List α) :
    b ∈ insertByKey key a l ↔ b = a ∨ b ∈ l := by
  induction l with
  | nil => simp [insertByKey]
  | cons x xs ih =>
    unfold insertByKey
    split
    · simp
    · simp only [List.mem_cons, ih]
      tauto

theorem mem_sortByKey {α : Type} (key : α → String) (b : α) (l : List α) :
    b ∈ sortByKey key l ↔ b ∈ l := by
  induction l with
  | nil => simp [sortByKey]
  | cons x xs ih =>
    have : sortByKey key (x :: xs) = insertByKey key x (sortByKey key xs) := rfl
    rw [this, mem_insertByKey, ih]
    simp

theorem lookup_write_same (fs : FS) (path : String) (content : Bytes) :
    (fs.write path content).lookup path = some (Node.file content) := by
  simp [FS.write, FS.lookup, List.lookup]

theorem childOf_plain (n : String) (node : Node) (h1 : '/' ∉ n.data) (h2 : n.data ≠ []) :
    childOf uploadDir ("uploads/" ++ n, node) = some ⟨n, node.isDir⟩ := by
  have hp : (uploadDir ++ "/").data = "uploads/".data := by decide
  have hpre : ("uploads/".data).isPrefixOf ("uploads/" ++ n).data = true := by
    simp [String.data_append]
  have hdrop : ("uploads/" ++ n).data.drop ("uploads/".data).length = n.data := by
    simp [String.data_append]
  unfold childOf
  simp only [hp, hpre, if_true, hdrop]
  simp [h1, h2]

/-- The file name that `uploadHandler` generates is a plain name when the
original name is. -/
theorem generated_name_plain (now : Int) (name : String) (h : '/' ∉ name.data) :
    '/' ∉ (toString now ++ "-" ++ name).data ∧
    (toString now ++ "-" ++ name).data ≠ [] ∧
    (toString now ++ "-" ++ name).data ≠ ['.'] ∧
    (toString now ++ "-" ++ name).data ≠ ['.', '.'] := by
  have hdash : '-' ∈ (toString now ++ "-" ++ name).data := by
    simp [String.data_append]
  refine ⟨?_, ?_, ?_, ?_⟩
  · simp only [String.data_append, List.mem_append, not_or]
    exact ⟨⟨intRepr_no_slash now, by decide⟩, h⟩
  · intro e; rw [e] at hdash; simp at hdash
  · intro e; rw [e] at hdash; simp at hdash
  · intro e; rw [e] at hdash; simp at hdash

/-- The type check of `uploadHandler`, for a POST whose `image` field is present
and whose sample could be read. -/
theorem upload_type_check (detect : Bytes → String) (env : Env) (w : World) (r : Request)
    (header : FormFile) (hm : r.Method = "POST") (hff : r.FormFile "image" = some header)
    (hr : env.readFails = false) (hc : header.content ≠ []) :
    (allowedTypes (detect (header.content.take 512 ++
        List.replicate (512 - header.content.length) 0)) = true ↔
      detect (header.content.take 512 ++ List.replicate (512 - header.content.length) 0) ∈
        ["image/jpeg", "image/png", "image/gif", "image/webp", "application/octet-stream"]) ∧
    ((uploadHandler detect env w r).2.status = some 400 ↔
      allowedTypes (detect (header.content.take 512 ++
        List.replicate (512 - header.content.length) 0)) = false) ∧
    (allowedTypes (detect (header.content.take 512 ++
        List.replicate (512 - header.content.length) 0)) = false →
      uploadHandler detect env w r =
        (w, Reply.json 400 ⟨false, "Unsupported file type: " ++
          detect (header.content.take 512 ++ List.replicate (512 - header.content.length) 0),
          none⟩)) ∧
    (allowedTypes (detect (header.content.take 512 ++
        List.replicate (512 - header.content.length) 0)) = true →
      env.seekFails = false → env.createFails = false → env.copyFails = none →
      (uploadHandler detect env w r).2.status = some 201 ∧
      (uploadHandler detect env w r).1.fs.lookup
        (filepath.Join uploadDir (toString env.now ++ "-" ++ header.Filename)) =
          some (Node.file header.content)) := by
  have hrej : allowedTypes (detect (header.content.take 512 ++
        List.replicate (512 - header.content.length) 0)) = false →
      uploadHandler detect env w r =
        (w, Reply.json 400 ⟨false, "Unsupported file type: " ++
          detect (header.content.take 512 ++ List.replicate (512 - header.content.length) 0),
          none⟩) := by
    intro hal
    simp [uploadHandler, hm, hff, read_nonempty env header.content hr hc, hal, respondJSON,
      http.StatusBadRequest]
  refine ⟨allowedTypes_iff _, ?_, hrej, ?_⟩
  · constructor
    · intro h400
      cases hal : allowedTypes (detect (header.content.take 512 ++
          List.replicate (512 - header.content.length) 0)) with
      | false => rfl
      | true =>
        exfalso
        cases hseek : ((⟨header.content, 0⟩ : File).Read env sniffBuffer).file.Seek env 0
            io.SeekStart with
        | none =>
          simp [uploadHandler, hm, hff, read_nonempty env header.content hr hc, hal,
            respondJSON, Reply.status, http.StatusInternalServerError] at h400 hseek
          simp [hseek] at h400
        | some file =>
          cases hcreate : os.Create env w.fs
              (filepath.Join uploadDir (toString env.now ++ "-" ++ header.Filename)) with
          | none =>
            simp [uploadHandler, hm, hff, read_nonempty env header.content hr hc, hal,
              respondJSON, Reply.status, http.StatusInternalServerError] at h400 hseek
            simp [hseek, hcreate] at h400
          | some fs1 =>
            cases hcopy : io.Copy env fs1
                (filepath.Join uploadDir (toString env.now ++ "-" ++ header.Filename)) file with
            | mk fs2 b =>
              simp [uploadHandler, hm, hff, read_nonempty env header.content hr hc, hal,
                respondJSON, Reply.status, http.StatusInternalServerError,
                http.StatusCreated] at h400 hseek
              simp [hseek, hcreate, hcopy] at h400
              cases b <;> simp at h400
    · intro hal
      rw [hrej hal]
      rfl
  · intro hal hseek hcreate hcopy
    rw [upload_stored detect env w r header hm hff hr hc hal hseek hcreate hcopy]
    exact ⟨rfl, lookup_write_same _ _ _⟩

/-- C3: for a POST whose `image` field is present and whose sample could be
read, with `t` the type detected from the sample buffer: `allowedTypes[t]`
holds exactly for the five listed types; the upload is refused with 400 exactly
when `t` is not allowed, and then the message is `Unsupported file type: `
followed by `t` and the state (so also the upload directory) is unchanged; an
allowed upload is stored and answered 201 when seeking, creating and copying
succeed. -/
theorem upload_allow_list (detect : Bytes → String) (env : Env) (w : World) (r : Request)
    (header : FormFile) (hm : r.Method = "POST") (hff : r.FormFile "image" = some header)
    (hr : env.readFails = false) (hc : header.content ≠ []) :
    (allowedTypes (detect (header.content.take 512 ++
        List.replicate (512 - header.content.length) 0)) = true ↔
      detect (header.content.take 512 ++ List.replicate (512 - header.content.length) 0) ∈
        ["image/jpeg", "image/png", "image/gif", "image/webp", "application/octet-stream"]) ∧
    ((uploadHandler detect env w r).2.status = some 400 ↔
      allowedTypes (detect (header.content.take 512 ++
        List.replicate (512 - header.content.length) 0)) = false) ∧
    (allowedTypes (detect (header.content.take 512 ++
        List.replicate (512 - header.content.length) 0)) = false →
      uploadHandler detect env w r =
        (w, Reply.json 400 ⟨false, "Unsupported file type: " ++
          detect (header.content.take 512 ++ List.replicate (512 - header.content.length) 0),
          none⟩)) ∧
    (allowedTypes (detect (header.content.take 512 ++
        List.replicate (512 - header.content.length) 0)) = true →
      env.seekFails = false → env.createFails = false → env.copyFails = none →
      (uploadHandler detect env w r).2.status = some 201 ∧
      (uploadHandler detect env w r).1.fs.lookup
        (filepath.Join uploadDir (toString env.now ++ "-" ++ header.Filename)) =
          some (Node.file header.content)) :=
  upload_type_check detect env w r header hm hff hr hc

set_option maxRecDepth 100000 in
theorem upload_allow_list_witness :
    (postUpload "notes.txt" (List.replicate 600 104)).Method = "POST" ∧
    (postUpload "notes.txt" (List.replicate 600 104)).FormFile "image" =
      some ⟨"notes.txt", List.replicate 600 104⟩ ∧
    uploadHandler sniffText (quietEnv 1) (World.init sampleFS)
        (postUpload "notes.txt" (List.replicate 600 104)) =
      (World.init sampleFS,
        Reply.json 400 ⟨false, "Unsupported file type: text/plain; charset=utf-8", none⟩) :=
  ⟨by decide, by decide,
    (upload_allow_list sniffText (quietEnv 1) (World.init sampleFS)
      (postUpload "notes.txt" (List.replicate 600 104)) ⟨"notes.txt", List.replicate 600 104⟩
      (by decide) (by decide) (by decide) (by decide)).2.2.1 (by decide)⟩

/-- C4, the code at the failing inputs: an upload of empty content is refused
with 500 `Error reading file content`, under every environment and detector
(`Read` returns `io.EOF`, and the handler treats every error of `Read` as a
failure); and for every non-empty content `c` of fewer than 512 bytes the type
that decides is the one detected from the whole 512-byte buffer, `c` followed
by zero bytes, not from the bytes read. For the five bytes `hello`, which taken
alone are plain text (not allowed), the padded buffer counts as binary data and
the upload is stored and answered 201. -/
theorem upload_short_content (detect : Bytes → String) (env : Env) (w : World)
    (name : String) (form : List (String × String)) (c : Bytes) :
    uploadHandler detect env w ⟨"POST", form, [("image", ⟨name, []⟩)]⟩ =
      (w, Reply.json 500 ⟨false, "Error reading file content", none⟩) ∧
    (c ≠ [] → c.length < 512 → env.readFails = false →
      ((uploadHandler detect env w (postUpload name c)).2.status = some 400 ↔
        allowedTypes (detect (c ++ List.replicate (512 - c.length) 0)) = false)) ∧
    (sniffText helloBytes = "text/plain; charset=utf-8" ∧
      allowedTypes (sniffText helloBytes) = false ∧
      (uploadHandler sniffText (quietEnv 1) (World.init sampleFS)
          (postUpload "hello.txt" helloBytes)).2 =
        Reply.json 201 ⟨true, "File uploaded successfully",
          some (DataValue.dict [("filename", "1-hello.txt")])⟩) := by
  refine ⟨?_, ?_, ?_⟩
  · have he := read_empty env
    simp [uploadHandler, Request.FormFile, List.lookup, he, respondJSON,
      http.StatusInternalServerError]
  · intro hc hlen hr
    have hu := (upload_type_check detect env w (postUpload name c) ⟨name, c⟩ rfl rfl hr hc).2.1
    have htake : List.take 512 c = c := List.take_of_length_le (by omega)
    simp only [FormFile.content, htake] at hu
    exact hu
  · set_option maxRecDepth 100000 in decide

/-- C5 as stated fails: a POST to `/upload` whose original name is the single
character `/`, with a PNG body, at time 1. `Sprintf` gives the filename `1-`
followed by that slash, `filepath.Join` cleans the trailing slash away, so the
file is created at `uploads/1-`; the answer is 201 with the uncleaned filename,
and the listing that follows holds `1-` but not the filename that was
returned. -/
theorem upload_slash_name_not_listed :
    uploadHandler sniffPNG (quietEnv 1) (World.init sampleFS) (postUpload "/" pngMagic) =
      (⟨"", ⟨[("uploads/1-", Node.file pngMagic), ("uploads", Node.dir),
          ("uploads/7-cat.png", Node.file pngMagic)]⟩⟩,
        Reply.json 201 ⟨true, "File uploaded successfully",
          some (DataValue.dict [("filename", "1-/")])⟩) ∧
    listImagesHandler (quietEnv 2)
        (uploadHandler sniffPNG (quietEnv 1) (World.init sampleFS) (postUpload "/" pngMagic)).1
        getRequest =
      ((uploadHandler sniffPNG (quietEnv 1) (World.init sampleFS) (postUpload "/" pngMagic)).1,
        Reply.json 200 ⟨true, "", some (DataValue.strings (some ["1-", "7-cat.png"]))⟩) ∧
    "1-/" ∉ ["1-", "7-cat.png"] := by
  set_option maxRecDepth 100000 in decide

/-- C5, amended: for every POST to `/upload` whose sample could be read, whose
detected type is allowed, and whose seek, create and copy succeed,
`uploadHandler` answers 201 with `success = true` and data `filename ↦ n`,
where `n` is the decimal `UnixNano` time, a hyphen and the original name
unchanged; the selection is untouched; the file at
`filepath.Join(uploadDir, n)` holds the whole uploaded content; and, when the
original name contains no `/`, every later listing whose directory read
succeeds names `n`. -/
theorem upload_created_and_listed (detect : Bytes → String) (env : Env) (w : World)
    (r : Request) (header : FormFile) (hm : r.Method = "POST")
    (hff : r.FormFile "image" = some header)
    (hr : env.readFails = false) (hc : header.content ≠ [])
    (hal : allowedTypes (detect (header.content.take 512 ++
      List.replicate (512 - header.content.length) 0)) = true)
    (hseek : env.seekFails = false) (hcreate : env.createFails = false)
    (hcopy : env.copyFails = none) :
    (uploadHandler detect env w r).2 =
      Reply.json 201 ⟨true, "File uploaded successfully",
        some (DataValue.dict [("filename", toString env.now ++ "-" ++ header.Filename)])⟩ ∧
    (uploadHandler detect env w r).1.currentImage = w.currentImage ∧
    (uploadHandler detect env w r).1.fs.lookup
        (filepath.Join uploadDir (toString env.now ++ "-" ++ header.Filename)) =
      some (Node.file header.content) ∧
    ('/' ∉ header.Filename.data →
      ∀ (env2 : Env) (r2 : Request), env2.readDirFails = false →
        ∃ names, listImagesHandler env2 (uploadHandler detect env w r).1 r2 =
            ((uploadHandler detect env w r).1,
              Reply.json 200 ⟨true, "", some (DataValue.strings (some names))⟩) ∧
          (toString env.now ++ "-" ++ header.Filename) ∈ names) := by
  rw [upload_stored detect env w r header hm hff hr hc hal hseek hcreate hcopy]
  refine ⟨rfl, rfl, lookup_write_same _ _ _, ?_⟩
  intro hplain env2 r2 hrd
  obtain ⟨h1, h2, h3, h4⟩ := generated_name_plain env.now header.Filename hplain
  rw [join_uploadDir_plain _ h1 h2 h3 h4]
  refine ⟨((sortByKey DirEntry.Name
      (((w.fs.write ("uploads/" ++ (toString env.now ++ "-" ++ header.Filename)) []).write
        ("uploads/" ++ (toString env.now ++ "-" ++ header.Filename))
          header.content).nodes.filterMap (childOf uploadDir))).filter
        (fun file => !file.IsDir)).map DirEntry.Name, ?_, ?_⟩
  · simp [listImagesHandler, os.ReadDir, hrd, respondJSON, http.StatusOK, StringSlice.make,
      collect_names]
  · simp only [List.mem_map, List.mem_filter, mem_sortByKey, List.mem_filterMap]
    refine ⟨⟨toString env.now ++ "-" ++ header.Filename, false⟩,
      ⟨⟨("uploads/" ++ (toString env.now ++ "-" ++ header.Filename), Node.file header.content),
        ?_, ?_⟩, rfl⟩, rfl⟩
    · simp [FS.write]
    · exact childOf_plain _ _ h1 h2

set_option maxRecDepth 100000 in
theorem upload_created_and_listed_witness :
    (postUpload "dog.png" pngMagic).Method = "POST" ∧
    allowedTypes
      (sniffPNG (pngMagic.take 512 ++ List.replicate (512 - pngMagic.length) 0)) = true ∧
    (uploadHandler sniffPNG (quietEnv 1) (World.init sampleFS) (postUpload "dog.png" pngMagic)).2 =
      Reply.json 201 ⟨true, "File uploaded successfully",
        some (DataValue.dict [("filename", "1-dog.png")])⟩ ∧
    (listImagesHandler (quietEnv 2)
      (uploadHandler sniffPNG (quietEnv 1) (World.init sampleFS)
        (postUpload "dog.png" pngMagic)).1 getRequest).2 =
      Reply.json 200 ⟨true, "", some (DataValue.strings (some ["1-dog.png", "7-cat.png"]))⟩ :=
  ⟨by decide, by decide,
    (upload_created_and_listed sniffPNG (quietEnv 1) (World.init sampleFS)
      (postUpload "dog.png" pngMagic) ⟨"dog.png", pngMagic⟩ (by decide) (by decide) (by decide)
      (by decide) (by decide) (by decide) (by decide) (by decide)).1,
    by decide⟩

/-! ## Listing and the response envelope -/

/-- C8: when the upload directory can be read, `listImagesHandler` answers 200
with `success = true` and, as data, the names of the entries that are not
directories, in the order of the directory listing (these are exactly the
names of the non-directory nodes directly under the upload directory); when
the listing is empty the JSON body still has the member `data`, an empty
array; when reading the directory fails it answers 500 with
`success = false`. The state is never changed. -/
theorem listImages_reply (env : Env) (w : World) (r : Request) :
    (∀ entries, os.ReadDir env w.fs uploadDir = some entries →
      listImagesHandler env w r =
        (w, Reply.json 200 ⟨true, "", some (DataValue.strings
          (some ((entries.filter (fun e => !e.IsDir)).map DirEntry.Name)))⟩) ∧
      ∀ name, name ∈ (entries.filter (fun e => !e.IsDir)).map DirEntry.Name ↔
        ∃ kv ∈ w.fs.nodes, childOf uploadDir kv = some ⟨name, false⟩) ∧
    (os.ReadDir env w.fs uploadDir = some [] →
      (listImagesHandler env w r).2.jsonBody =
        some [("success", JsonValue.bool true), ("message", JsonValue.str ""),
          ("data", JsonValue.array [])]) ∧
    (os.ReadDir env w.fs uploadDir = none →
      listImagesHandler env w r =
        (w, Reply.json 500 ⟨false, "Error reading upload directory", none⟩)) := by
  refine ⟨?_, ?_, ?_⟩
  · intro entries h
    refine ⟨by simp [listImagesHandler, h, respondJSON, http.StatusOK, StringSlice.make,
      collect_names], ?_⟩
    intro name
    have hent : entries = sortByKey DirEntry.Name (w.fs.nodes.filterMap (childOf uploadDir)) := by
      unfold os.ReadDir at h
      split at h
      · exact absurd h (by simp)
      · exact (Option.some.inj h).symm
    subst hent
    simp only [List.mem_map, List.mem_filter, mem_sortByKey, List.mem_filterMap]
    constructor
    · rintro ⟨e, ⟨⟨kv, hkv, hc⟩, hd⟩, rfl⟩
      refine ⟨kv, hkv, ?_⟩
      rw [hc]
      cases e with
      | mk nm d =>
        simp at hd
        simp [hd]
    · rintro ⟨kv, hkv, hc⟩
      exact ⟨⟨name, false⟩, ⟨⟨kv, hkv, hc⟩, rfl⟩, rfl⟩
  · intro h
    simp [listImagesHandler, h, respondJSON, Reply.jsonBody, Response.encode, DataValue.encode,
      StringSlice.make]
  · intro h
    simp [listImagesHandler, h, respondJSON, http.StatusInternalServerError]

set_option maxRecDepth 100000 in
theorem listImages_reply_witness :
    os.ReadDir (quietEnv 1) (⟨[("uploads", Node.dir)]⟩ : FS) uploadDir = some [] ∧
    (listImagesHandler (quietEnv 1) ⟨"", ⟨[("uploads", Node.dir)]⟩⟩ getRequest).2.jsonBody =
      some [("success", JsonValue.bool true), ("message", JsonValue.str ""),
        ("data", JsonValue.array [])] ∧
    listImagesHandler (quietEnv 1)
        ⟨"", ⟨[("uploads", Node.dir), ("uploads/b.png", Node.file []),
          ("uploads/sub", Node.dir), ("uploads/sub/c.png", Node.file []),
          ("uploads/a.png", Node.file [])]⟩⟩ getRequest =
      (⟨"", ⟨[("uploads", Node.dir), ("uploads/b.png", Node.file []),
          ("uploads/sub", Node.dir), ("uploads/sub/c.png", Node.file []),
          ("uploads/a.png", Node.file [])]⟩⟩,
        Reply.json 200 ⟨true, "", some (DataValue.strings (some ["a.png", "b.png"]))⟩) :=
  ⟨by decide,
    (listImages_reply (quietEnv 1) ⟨"", ⟨[("uploads", Node.dir)]⟩⟩ getRequest).2.1
      (by decide),
    by decide⟩

/-- C9 as stated fails on `streamHandler`: with nothing selected it answers
through `http.Error`, a plain-text 404 and no JSON envelope; with an existing
file selected it answers with the file. -/
theorem stream_reply_not_envelope :
    (streamHandler (quietEnv 1) (World.init sampleFS) getRequest).2 =
      Reply.text 404 "No image currently selected" ∧
    (streamHandler (quietEnv 1) (World.init sampleFS) getRequest).2.isUniformEnvelope = false ∧
    (streamHandler (quietEnv 1) ⟨"7-cat.png", sampleFS⟩ getRequest).2 =
      Reply.serveFile "uploads/7-cat.png" ∧
    (streamHandler (quietEnv 1) ⟨"7-cat.png", sampleFS⟩ getRequest).2.isUniformEnvelope =
      false := by
  set_option maxRecDepth 100000 in decide

/-- C9, amended: `uploadHandler`, `selectImageHandler`, `listImagesHandler` and
`currentImageHandler` answer every request with the uniform envelope: a JSON
`Response` where an error (`success = false`) has a non-empty message and a
status among 400, 404, 405, 500, and `success = true` comes with a 2xx status.
`streamHandler`, when a file is selected and not reported missing, answers
with that file through `http.ServeFile` and not with the envelope. -/
theorem json_handlers_use_envelope (detect : Bytes → String) (env : Env) (w : World)
    (r : Request) :
    (uploadHandler detect env w r).2.isUniformEnvelope = true ∧
    (selectImageHandler env w r).2.isUniformEnvelope = true ∧
    (listImagesHandler env w r).2.isUniformEnvelope = true ∧
    (currentImageHandler env w r).2.isUniformEnvelope = true ∧
    (w.currentImage ≠ "" →
      os.IsNotExist (os.Stat env w.fs (filepath.Join uploadDir w.currentImage)) = false →
      (streamHandler env w r).2 = Reply.serveFile (filepath.Join uploadDir w.currentImage) ∧
      (streamHandler env w r).2.isUniformEnvelope = false) := by
  refine ⟨?_, ?_, ?_, ?_, ?_⟩
  · rcases upload_cases detect env w r with
      h | h | h | ⟨t, h⟩ | h | h | ⟨fs2, h⟩ | ⟨fs2, n, h⟩ <;>
    simp [h, Reply.isUniformEnvelope]
    · intro e
      have := congrArg String.length e
      simp only [String.length_append] at this
      have h23 : "Unsupported file type: ".length = 23 := by decide
      have h0 : "".length = 0 := by decide
      omega
  · by_cases hm : r.Method = "POST" <;>
    by_cases hf : r.FormValue "filename" = "" <;>
    by_cases hx : os.IsNotExist (os.Stat env w.fs
      (filepath.Join uploadDir (r.FormValue "filename"))) = true <;>
    simp [selectImageHandler, hm, hf, hx, respondJSON, Reply.isUniformEnvelope,
      http.StatusMethodNotAllowed, http.StatusBadRequest, http.StatusNotFound, http.StatusOK]
  · cases h : os.ReadDir env w.fs uploadDir <;>
    simp [listImagesHandler, h, respondJSON, Reply.isUniformEnvelope,
      http.StatusInternalServerError, http.StatusOK]
  · simp [currentImageHandler, respondJSON, Reply.isUniformEnvelope, http.StatusOK]
  · intro h hx
    simp [streamHandler, h, hx, Reply.isUniformEnvelope]

set_option maxRecDepth 100000 in
theorem json_handlers_use_envelope_witness :
    (uploadHandler sniffPNG (quietEnv 1) ⟨"7-cat.png", sampleFS⟩ getRequest).2 =
      Reply.json 405 ⟨false, "Method not allowed", none⟩ ∧
    (uploadHandler sniffPNG (quietEnv 1) ⟨"7-cat.png", sampleFS⟩
      getRequest).2.isUniformEnvelope = true ∧
    (streamHandler (quietEnv 1) ⟨"7-cat.png", sampleFS⟩ getRequest).2 =
      Reply.serveFile "uploads/7-cat.png" :=
  ⟨by decide,
    (json_handlers_use_envelope sniffPNG (quietEnv 1) ⟨"7-cat.png", sampleFS⟩ getRequest).1,
    ((json_handlers_use_envelope sniffPNG (quietEnv 1) ⟨"7-cat.png", sampleFS⟩
      getRequest).2.2.2.2 (by decide) (by decide)).1⟩

end ImageServer
